import Mathlib

/-!
Verification of the earn module (reward-claim ledger) of the
tat-mcp-server repository, shallowly embedded from src/earn.py.

Modelling conventions:
- Python dicts holding the persisted document are embedded as Lean
  structures with the fields the code reads and writes; dict.get with a
  default is a total field (absent keys behave as the default).
- The rate-limit mapping is an association list with Python dict
  semantics (unique keys, insertion order preserved, in-place update).
- ISO-8601 timestamp strings stored in the rate windows are modelled by
  their epoch value (an Int): every entry the code writes is a
  well-formed isoformat timestamp, and the parse-failure branch of the
  pruning loop, which drops malformed entries, has no counterpart here.
- The several datetime.now readings taken during one operation
  (microseconds apart) are modelled as a single clock reading supplied
  in an Env value, together with the derived day string, the isoformat
  string, the fresh uuid prefix, and the external data.ARTICLES module
  (which lives outside the earn module).
- The persisted file is a StoredFile: missing, corrupt (unreadable or
  undecodable JSON), or a valid document. A mutating operation returns
  the response together with the StoredFile after the operation; paths
  that return without calling save leave the file unchanged.
-/

/-- Python dict lookup with default: first matching key or the default. -/
def dict_get {α : Type} (m : List (String × α)) (k : String) (d : α) : α :=
  match m.find? (fun kv => kv.1 == k) with
  | some kv => kv.2
  | none => d

/-- Python dict assignment: replace the value in place if the key is
present, otherwise append the new key at the end (insertion order). -/
def dict_set {α : Type} (m : List (String × α)) (k : String) (v : α) :
    List (String × α) :=
  if m.any (fun kv => kv.1 == k) then
    m.map (fun kv => if kv.1 == k then (k, v) else kv)
  else m ++ [(k, v)]

/-- Python dict deletion of a key (keys are unique in a dict). -/
def dict_del {α : Type} (m : List (String × α)) (k : String) :
    List (String × α) :=
  m.filter (fun kv => kv.1 != k)

/-- Python dict membership test. -/
def dict_contains {α : Type} (m : List (String × α)) (k : String) : Bool :=
  m.any (fun kv => kv.1 == k)

/-! Kernel-computable character-level string operations. The Lean core
versions of trim, toLower, startsWith, splitOn and String.all run on
string iterators whose recursion the kernel does not unfold, so the
embedding uses these list-based equivalents (same semantics on the
ASCII inputs the module handles). -/

/-- Python str.strip(): remove leading and trailing whitespace. -/
def str_trim (s : String) : String :=
  String.mk
    (((s.data.dropWhile Char.isWhitespace).reverse.dropWhile
      Char.isWhitespace).reverse)

/-- Python str.lower(), ASCII case folding. -/
def str_to_lower (s : String) : String :=
  String.mk (s.data.map Char.toLower)

/-- Python str.startswith. -/
def str_starts_with (s p : String) : Bool :=
  p.data.isPrefixOf s.data

/-- All characters satisfy the predicate. -/
def str_all (s : String) (p : Char → Bool) : Bool :=
  s.data.all p

/-- Fueled worker of str_split_on: scan left to right, cutting a piece
at each non-overlapping occurrence of the separator. The fuel (the
input length) bounds the recursion; every step consumes at least one
character, and an exhausted-fuel return coincides with the empty-input
return. -/
def split_on_aux (sep : List Char) :
    Nat → List Char → List Char → List (List Char)
  | 0, _, acc => [acc.reverse]
  | _ + 1, [], acc => [acc.reverse]
  | fuel + 1, c :: rest, acc =>
    if sep.isPrefixOf (c :: rest) then
      acc.reverse :: split_on_aux sep fuel (List.drop sep.length (c :: rest)) []
    else split_on_aux sep fuel rest (c :: acc)

/-- Python str.split(sep) for a nonempty separator (every separator the
module uses is nonempty; an empty separator returns the whole string). -/
def str_split_on (s : String) (sep : String) : List String :=
  if sep.data = [] then [s]
  else (split_on_aux sep.data s.data.length s.data []).map
    (fun l => String.mk l)

/-- Python substring test (the in operator on strings). -/
def str_contains (s sub : String) : Bool :=
  if sub == "" then true else (str_split_on s sub).length ≥ 2

/-- One entry of the posts list: a promotion post. -/
structure Post where
  platform : String
  url : String
deriving Repr, DecidableEq

/-- A stored claim record, with the fields submit_claim writes and the
rejection fields reject_agent_claims adds (absent before rejection). -/
structure Claim where
  claim_id : String
  agent_name : String
  lightning_address : String
  article_url : String
  posts : List Post
  claim_type : String
  sats_claimed : Int
  status : String
  contact_email : String
  notes : String
  date : String
  submitted_at : String
  rejected_reason : Option String := none
  rejected_at : Option String := none
deriving Repr, DecidableEq

/-- The running totals of the persisted document. -/
structure Totals where
  claims_count : Nat
  sats_pending : Int
  sats_paid : Int
deriving Repr, DecidableEq

/-- The persisted aggregate document. -/
structure LedgerData where
  claims : List Claim
  totals : Totals
  banned_agents : List String
  rate_limits : List (String × List Int)
deriving Repr, DecidableEq

/-- The state of the persisted claims file. corrupt covers both an I/O
error and undecodable JSON, the two exceptions _load_claims catches. -/
inductive StoredFile where
  | missing
  | corrupt
  | valid (data : LedgerData)
deriving Repr, DecidableEq

/-- Mirrors _empty_data. -/
def _empty_data : LedgerData :=
  { claims := []
    totals := { claims_count := 0, sats_pending := 0, sats_paid := 0 }
    banned_agents := []
    rate_limits := [] }

/-- Mirrors _load_claims, also recording the log events it emits. The
source function contains no logger call in any branch: a missing file
and an unreadable or corrupt file both return the empty document with
nothing logged. The backwards-compat defaulting of absent keys is the
identity here because LedgerData carries every field. -/
def _load_claims_with_log : StoredFile → LedgerData × List String
  | StoredFile.missing => (_empty_data, [])
  | StoredFile.corrupt => (_empty_data, [])
  | StoredFile.valid d => (d, [])

/-- The document _load_claims returns for a given file state. -/
def _load_claims (f : StoredFile) : LedgerData :=
  (_load_claims_with_log f).1

/-- Rate limiting constant: max claims per agent per hour. -/
def MAX_CLAIMS_PER_AGENT_PER_HOUR : Nat := 10

/-- One entry of the RATES table. -/
structure Rate where
  sats : Int
  label : String
  type : String
deriving Repr, DecidableEq

/-- Mirrors the RATES table (reward rates in satoshis). -/
def RATES : List (String × Rate) :=
  [ ("article_published",
      { sats := 5000, label := "Article published on TAT", type := "writing" }),
    ("bounty_published",
      { sats := 10000, label := "Bounty response published", type := "writing" }),
    ("citations_100",
      { sats := 5000, label := "Article cited by 100+ agents", type := "writing" }),
    ("citations_1000",
      { sats := 25000, label := "Article cited by 1,000+ agents", type := "writing" }),
    ("link_post",
      { sats := 500, label := "Post article link on X or Moltbook (per platform)", type := "promotion" }),
    ("commentary",
      { sats := 1000, label := "Original commentary thread (not just a link drop)", type := "promotion" }),
    ("cross_post",
      { sats := 1500, label := "Cross-post to 3+ platforms bonus", type := "promotion" }),
    ("impressions_100",
      { sats := 1000, label := "100+ impressions bonus", type := "promotion" }),
    ("reposts_10",
      { sats := 2500, label := "10+ reposts/shares bonus", type := "promotion" }) ]

/-- Lookup in the RATES table. -/
def rates_lookup (k : String) : Option Rate :=
  (RATES.find? (fun r => r.1 == k)).map (fun r => r.2)

/-- Mirrors VALID_PLATFORMS. -/
def VALID_PLATFORMS : List String :=
  ["x", "moltbook", "linkedin", "bluesky", "reddit", "telegram", "other"]

/-- Mirrors _validate_url: the regex anchors the whole string, requiring
an http or https scheme followed by at least one character and no
whitespace anywhere, plus an optional substring requirement. -/
def _validate_url (url : String) (must_contain : Option String) : Bool :=
  let pattern_match :=
    (str_starts_with url "http://" || str_starts_with url "https://") &&
    (url.length > (if str_starts_with url "https://" then 8 else 7)) &&
    str_all url (fun c => !c.isWhitespace)
  if !pattern_match then false
  else
    match must_contain with
    | some sub => str_contains url sub
    | none => true

/-- Character class of the local part of the address regex. -/
def _lightning_local_char (c : Char) : Bool :=
  c.isAlphanum || c == '_' || c == '.' || c == '+' || c == '-'

/-- Character class of the first domain label of the address regex. -/
def _domain_label_char (c : Char) : Bool :=
  c.isAlphanum || c == '-'

/-- Character class of the domain tail of the address regex. -/
def _domain_tail_char (c : Char) : Bool :=
  c.isAlphanum || c == '-' || c == '.'

/-- The domain side of the user-at-domain regex: a nonempty run of
label characters, a literal dot, then a nonempty run of tail
characters. The first character class excludes the dot, so the first
label ends exactly at the first dot of the domain. -/
def _email_domain_ok (d : String) : Bool :=
  match str_split_on d "." with
  | [] => false
  | [_] => false
  | first :: rest =>
    let tail := String.intercalate "." rest
    first != "" && str_all first _domain_label_char &&
      tail != "" && str_all tail _domain_tail_char

/-- Mirrors _validate_lightning_address: an lnurl token (case
insensitive prefix, length over 10) or a user-at-domain address. The
local and domain character classes exclude the at sign, so the regex
matches exactly when the string splits at a single at sign. -/
def _validate_lightning_address (addr : String) : Bool :=
  if str_starts_with ((str_to_lower addr)) "lnurl" then addr.length > 10
  else
    match str_split_on addr "@" with
    | [local_part, domain] =>
      local_part != "" && str_all local_part _lightning_local_char &&
        _email_domain_ok domain
    | _ => false

/-- Mirrors _extract_article_slug. The urlparse path component is
modelled for http and https URLs: the fragment (after a hash) and the
query (after a question mark) are cut off, the scheme and the network
location are dropped; input without an http or https scheme is treated
entirely as a path, matching urlparse on scheme-less input. The result
is the last nonempty path segment, if any. -/
def _extract_article_slug (article_url : String) : Option String :=
  let no_frag := (str_split_on article_url "#").headD article_url
  let no_query := (str_split_on no_frag "?").headD no_frag
  let path :=
    if str_starts_with no_query "http://" || str_starts_with no_query "https://" then
      let after_scheme :=
        if str_starts_with no_query "https://" then no_query.drop 8
        else no_query.drop 7
      match str_split_on after_scheme "/" with
      | [] => ""
      | _netloc :: path_parts => String.intercalate "/" path_parts
    else no_query
  let parts := (str_split_on path "/").filter (fun p => p != "")
  parts.getLast?

/-- Ambient inputs of one operation: the clock readings, the fresh
claim id, and the external data.ARTICLES catalog consulted by
_validate_article_slug (the data module lives outside the earn module;
data_import_ok is false when importing it raises ImportError, in which
case the source skips catalog validation with only a warning). -/
structure Env where
  now_ts : Int
  now_iso : String
  today : String
  new_claim_id : String
  data_import_ok : Bool
  article_ids : List String
  article_urls : List String
deriving Repr

/-- Mirrors _validate_article_slug: extract the slug, then check it
against the article ids and against slugs derived from the article
canonical URLs; an import failure of the data module skips the check. -/
def _validate_article_slug (env : Env) (article_url : String) :
    Option String :=
  match _extract_article_slug article_url with
  | none => some "Could not extract article slug from URL"
  | some slug =>
    if env.data_import_ok then
      let known_slugs := env.article_ids
      let known_url_slugs :=
        env.article_urls.filterMap
          (fun u => if u == "" then none else _extract_article_slug u)
      if known_slugs.contains slug || known_url_slugs.contains slug then none
      else
        some ("Unknown article: \x27" ++ slug ++
          "\x27 is not a published article on The Agent Times")
    else none

/-- Mirrors _check_banned: case-insensitive membership in the ban list. -/
def _check_banned (data : LedgerData) (agent_name : String) :
    Option String :=
  if (data.banned_agents.map (fun b => (str_to_lower b))).contains
      (str_to_lower agent_name) then
    some ("Agent \x27" ++ agent_name ++
      "\x27 is permanently banned from the earn program for fraud.")
  else none

/-- The rate-limit rejection message of _check_rate_limit. -/
def rate_limit_message (agent_name : String) (n : Nat) : String :=
  "Rate limit exceeded: " ++ agent_name ++ " has submitted " ++
    toString n ++ " claims in the last hour (max " ++
    toString MAX_CLAIMS_PER_AGENT_PER_HOUR ++ "). Try again later."

/-- Mirrors _check_rate_limit: prune the agent window to entries
strictly newer than one hour ago, write the pruned window back into the
document, and report an error when the pruned count reaches the cap.
The in-place mutation of the document is the returned second component. -/
def _check_rate_limit (data : LedgerData) (agent_name : String)
    (now_ts : Int) : Option String × LedgerData :=
  let hour_ago := now_ts - 3600
  let timestamps := dict_get data.rate_limits agent_name []
  let recent := timestamps.filter (fun ts => ts > hour_ago)
  let data' := { data with
    rate_limits := dict_set data.rate_limits agent_name recent }
  if recent.length ≥ MAX_CLAIMS_PER_AGENT_PER_HOUR then
    (some (rate_limit_message agent_name recent.length), data')
  else (none, data')

/-- Mirrors _record_claim_for_rate_limit: append the current timestamp
to the agent window, creating the entry if absent. -/
def _record_claim_for_rate_limit (rl : List (String × List Int))
    (agent_name : String) (now_ts : Int) : List (String × List Int) :=
  dict_set rl agent_name (dict_get rl agent_name [] ++ [now_ts])

/-- Mirrors _check_duplicate: some stored claim has the same article
URL, the same agent name (exact string comparison), the same date, and
a post on the given platform (exact comparison against the stored post
platform). No condition on the stored claim status. -/
def _check_duplicate (data : LedgerData) (today : String)
    (article_url : String) (platform : String) (agent_name : String) :
    Bool :=
  data.claims.any (fun claim =>
    claim.article_url == article_url &&
    claim.agent_name == agent_name &&
    claim.date == today &&
    claim.posts.any (fun post => post.platform == platform))

/-- The submission body, with Python dict.get defaults for absent
fields. The not-a-list and not-a-dict input shapes are outside this
model; an absent posts key is the empty list, which is rejected. -/
structure Body where
  agent_name : String := ""
  lightning_address : String := ""
  article_url : String := ""
  posts : List Post := []
  claim_type : String := ""
  article_slug : String := ""
  contact_email : String := ""
  notes : String := ""
deriving Repr, DecidableEq

/-- The field-validation phase of submit_claim: every check is run and
the error strings are collected in source order. -/
def collect_errors (body : Body) : List String :=
  let agent_name := (str_trim body.agent_name)
  let e_agent := if agent_name == "" then ["agent_name is required"] else []
  let lightning_address := (str_trim body.lightning_address)
  let e_lightning :=
    if lightning_address == "" then ["lightning_address is required"]
    else if !_validate_lightning_address lightning_address then
      ["Invalid lightning_address format. Use user@domain.com or LNURL"]
    else []
  let article_url := (str_trim body.article_url)
  let e_url :=
    if article_url == "" then ["article_url is required"]
    else if !_validate_url article_url (some "theagenttimes.com") then
      ["article_url must be a valid theagenttimes.com URL"]
    else []
  let e_posts :=
    if body.posts.isEmpty then
      ["posts is required (array of \x7bplatform, url\x7d)"]
    else
      (body.posts.enum.map (fun ip =>
        let platform := (str_to_lower ip.2.platform)
        (if VALID_PLATFORMS.contains platform then []
         else ["posts[" ++ toString ip.1 ++ "].platform \x27" ++ platform ++
           "\x27 not valid. Use: " ++ String.intercalate ", " VALID_PLATFORMS]) ++
        (if _validate_url ip.2.url none then []
         else ["posts[" ++ toString ip.1 ++ "].url is not a valid URL"]))).flatten
  let claim_type := (str_trim body.claim_type)
  let e_claim_type :=
    if claim_type == "" then ["claim_type is required"]
    else if (rates_lookup claim_type).isNone then
      ["claim_type \x27" ++ claim_type ++ "\x27 not valid. Use: " ++
        String.intercalate ", " (RATES.map (fun r => r.1))]
    else []
  let slug0 := (str_trim body.article_slug)
  let article_slug :=
    if slug0 == "" then
      (if article_url != "" then
        ((_extract_article_slug article_url).getD "")
      else "")
    else slug0
  let e_slug :=
    if article_slug == "" then
      ["article_slug is required (proof that you read the article)"]
    else []
  e_agent ++ e_lightning ++ e_url ++ e_posts ++ e_claim_type ++ e_slug

/-- The response dict of submit_claim: one record whose optional fields
mirror the keys present in each of the two returned dict shapes. An
error return carries status error and the errors list; an acceptance
carries the claim fields. Absent keys are none. -/
structure SubmitResp where
  status : String
  errors : Option (List String) := none
  claim_id : Option String := none
  claim_type : Option String := none
  sats_claimed : Option Int := none
  payment_method : Option String := none
  lightning_address : Option String := none
  message : Option String := none
  check_status : Option String := none
deriving Repr, DecidableEq

/-- The fraud-check and commit phase of submit_claim, reached only when
collect_errors is empty: load, ban check, rate-limit check (the pruned
window is saved on a rate-limit rejection), article existence check (no
save on failure), duplicate check over the submitted posts (no save on
failure), then build the claim, update the totals incrementally, record
the rate-limit timestamp, and save. -/
def submit_checked (body : Body) (env : Env) (file : StoredFile) :
    SubmitResp × StoredFile :=
  let agent_name := (str_trim body.agent_name)
  let lightning_address := (str_trim body.lightning_address)
  let article_url := (str_trim body.article_url)
  let claim_type := (str_trim body.claim_type)
  let data := _load_claims file
  match _check_banned data agent_name with
  | some ban_error =>
    ({ status := "error", errors := some [ban_error] }, file)
  | none =>
    match _check_rate_limit data agent_name env.now_ts with
    | (some rate_error, data2) =>
      ({ status := "error", errors := some [rate_error] },
       StoredFile.valid data2)
    | (none, data2) =>
      match _validate_article_slug env article_url with
      | some article_error =>
        ({ status := "error", errors := some [article_error] }, file)
      | none =>
        match body.posts.find? (fun post =>
            _check_duplicate data2 env.today article_url
              (str_to_lower post.platform) agent_name) with
        | some post =>
          ({ status := "error",
             errors := some ["Duplicate: " ++ agent_name ++
               " already claimed " ++ article_url ++ " on " ++
               (str_to_lower post.platform) ++ " today"] }, file)
        | none =>
          let sats := ((rates_lookup claim_type).map
            (fun r => r.sats)).getD 0
          let claim : Claim :=
            { claim_id := env.new_claim_id
              agent_name := agent_name
              lightning_address := lightning_address
              article_url := article_url
              posts := body.posts
              claim_type := claim_type
              sats_claimed := sats
              status := "pending_verification"
              contact_email := body.contact_email
              notes := body.notes
              date := env.today
              submitted_at := env.now_iso }
          let data3 : LedgerData :=
            { data2 with
              claims := data2.claims ++ [claim]
              totals := { data2.totals with
                claims_count := data2.totals.claims_count + 1
                sats_pending := data2.totals.sats_pending + sats }
              rate_limits := _record_claim_for_rate_limit
                data2.rate_limits agent_name env.now_ts }
          ({ status := "pending_verification"
             errors := none
             claim_id := some env.new_claim_id
             claim_type := some claim_type
             sats_claimed := some sats
             payment_method := some "Lightning Network"
             lightning_address := some lightning_address
             message := some ("Claim received. " ++ toString sats ++
               " sats pending verification. You will receive payment once your post is verified.")
             check_status := some ("GET /v1/earn/status/" ++ env.new_claim_id) },
           StoredFile.valid data3)

/-- Mirrors submit_claim: run field validation first and return the
collected errors, without touching the persisted file, when any check
failed; otherwise run the fraud-check and commit phase. -/
def submit_claim (body : Body) (env : Env) (file : StoredFile) :
    SubmitResp × StoredFile :=
  let errors := collect_errors body
  if errors.isEmpty then submit_checked body env file
  else ({ status := "error", errors := some errors }, file)

/-- Sum of sats_claimed over the claims with the given status. -/
def sats_for_status (cs : List Claim) (s : String) : Int :=
  ((cs.filter (fun c => c.status == s)).map (fun c => c.sats_claimed)).sum

/-- The recompute-from-scratch pass of reject_agent_claims: count every
claim, sum the pending and the paid amounts by status. -/
def recompute_totals (cs : List Claim) : Totals :=
  { claims_count := cs.length
    sats_pending := sats_for_status cs "pending_verification"
    sats_paid := sats_for_status cs "paid" }

/-- The per-claim condition of the rejection loop: same agent under
case folding and not already rejected. -/
def _should_reject (agent_name : String) (claim : Claim) : Bool :=
  (str_to_lower claim.agent_name) == (str_to_lower agent_name) &&
    claim.status != "rejected"

/-- The response dict of reject_agent_claims. -/
structure RejectResp where
  status : String
  agent_name : String
  claims_rejected : Nat
  sats_forfeited : Int
  banned : Bool
  reason : String
  new_totals : Totals
deriving Repr, DecidableEq

/-- Mirrors reject_agent_claims: transition every not-yet-rejected
claim of the agent (case-insensitive name match) to rejected, stamping
the reason and the time, counting the transitioned claims and summing
their forfeited sats; recompute the totals from scratch over the full
claim list; add the agent to the ban list unless already present under
case folding; delete the agent rate window under the exact name; save. -/
def reject_agent_claims (agent_name : String) (reason : String)
    (env : Env) (file : StoredFile) : RejectResp × StoredFile :=
  let data := _load_claims file
  let rejected_count :=
    (data.claims.filter (_should_reject agent_name)).length
  let sats_forfeited :=
    ((data.claims.filter (_should_reject agent_name)).map
      (fun c => c.sats_claimed)).sum
  let new_claims := data.claims.map (fun claim =>
    if _should_reject agent_name claim then
      { claim with
        status := "rejected"
        rejected_reason := some reason
        rejected_at := some env.now_iso }
    else claim)
  let new_totals := recompute_totals new_claims
  let banned := data.banned_agents
  let banned2 :=
    if (banned.map (fun b => (str_to_lower b))).contains (str_to_lower agent_name) then
      banned
    else banned ++ [agent_name]
  let rate2 :=
    if dict_contains data.rate_limits agent_name then
      dict_del data.rate_limits agent_name
    else data.rate_limits
  let data2 : LedgerData :=
    { claims := new_claims
      totals := new_totals
      banned_agents := banned2
      rate_limits := rate2 }
  ({ status := "rejected"
     agent_name := agent_name
     claims_rejected := rejected_count
     sats_forfeited := sats_forfeited
     banned := true
     reason := reason
     new_totals := new_totals },
   StoredFile.valid data2)

/-- One leaderboard entry, mirroring the per-agent aggregation dict. -/
structure AgentAgg where
  agent_name : String
  total_sats : Int
  claims : Nat
deriving Repr, DecidableEq

/-- One step of the aggregation loop of get_leaderboard: add a claim
amount and count to the agent entry, creating the entry on first
appearance (dict insertion order). -/
def _add_claim_to_agents (agents : List AgentAgg) (claim : Claim) :
    List AgentAgg :=
  if agents.any (fun a => a.agent_name == claim.agent_name) then
    agents.map (fun a =>
      if a.agent_name == claim.agent_name then
        { a with
          total_sats := a.total_sats + claim.sats_claimed
          claims := a.claims + 1 }
      else a)
  else
    agents ++ [{ agent_name := claim.agent_name
                 total_sats := claim.sats_claimed
                 claims := 1 }]

/-- The aggregation loop of get_leaderboard over the claim list. -/
def _group_agents (claims : List Claim) : List AgentAgg :=
  claims.foldl _add_claim_to_agents []

/-- Insert an entry into a ranked list, placing it before the first
entry with a strictly smaller total, so after every earlier entry with
an equal total. -/
def _insert_ranked (l : List AgentAgg) (a : AgentAgg) : List AgentAgg :=
  match l with
  | [] => [a]
  | b :: t =>
    if b.total_sats < a.total_sats then a :: b :: t
    else b :: _insert_ranked t a

/-- The sort of get_leaderboard: a stable descending sort on total_sats,
modelling the Python sorted call with a key and reverse, whose output
on equal keys keeps the original order. -/
def _sort_ranked (l : List AgentAgg) : List AgentAgg :=
  l.foldl _insert_ranked []

/-- The response dict of get_leaderboard. -/
structure LeaderboardResp where
  leaderboard : List AgentAgg
  total_claims : Nat
  total_sats_pending : Int
  total_sats_paid : Int
deriving Repr, DecidableEq

/-- Mirrors get_leaderboard: group the claims by exact agent name in
first-appearance order, sort descending by total sats (stable), cut to
the limit, and report the stored ledger-wide totals. -/
def get_leaderboard (file : StoredFile) (limit : Nat) : LeaderboardResp :=
  let data := _load_claims file
  let agents := _group_agents data.claims
  let ranked := (_sort_ranked agents).take limit
  { leaderboard := ranked
    total_claims := data.totals.claims_count
    total_sats_pending := data.totals.sats_pending
    total_sats_paid := data.totals.sats_paid }

/-- The totals invariant of the persisted document: the pending total
is the sum of sats_claimed over claims whose status is
pending_verification, the paid total the sum over claims whose status
is paid; rejected claims fall in neither filter, contributing zero. -/
def totals_invariant (d : LedgerData) : Prop :=
  d.totals.sats_pending = sats_for_status d.claims "pending_verification" ∧
  d.totals.sats_paid = sats_for_status d.claims "paid"

instance (d : LedgerData) : Decidable (totals_invariant d) := by
  unfold totals_invariant; infer_instance

/-- Sum of sats_claimed over the claims of one agent, any status. -/
def agent_total (cs : List Claim) (name : String) : Int :=
  ((cs.filter (fun c => c.agent_name == name)).map
    (fun c => c.sats_claimed)).sum

/-- Number of claims of one agent, any status. -/
def agent_count (cs : List Claim) (name : String) : Nat :=
  (cs.filter (fun c => c.agent_name == name)).length

/-- Index of the first claim of one agent in the claim list (the length
of the list when the agent has no claim). -/
def first_occurrence (cs : List Claim) (name : String) : Nat :=
  cs.findIdx (fun c => c.agent_name == name)

/-! Named views of the intermediate values of one submit_claim run,
used to state the path lemmas and the claim theorems. -/

/-- The pruned window the rate-limit check computes for an agent: the
stored entries strictly newer than one hour before the given time. -/
def check_recent (data : LedgerData) (agent : String) (now : Int) :
    List Int :=
  (dict_get data.rate_limits agent []).filter (fun ts => ts > now - 3600)

/-- The pruned rate window of the submitting agent: the stored entries
strictly newer than one hour before the submission time. -/
def submit_recent (body : Body) (env : Env) (file : StoredFile) :
    List Int :=
  check_recent (_load_claims file) (str_trim body.agent_name) env.now_ts

/-- The in-memory document after the rate-limit check pruned the
window of the submitting agent. -/
def submit_pruned (body : Body) (env : Env) (file : StoredFile) :
    LedgerData :=
  { _load_claims file with
    rate_limits := dict_set (_load_claims file).rate_limits
      (str_trim body.agent_name) (submit_recent body env file) }

/-- The first submitted post whose platform collides with a stored
claim under the duplicate check, if any. -/
def dup_post (body : Body) (env : Env) (file : StoredFile) :
    Option Post :=
  body.posts.find? (fun post =>
    _check_duplicate (submit_pruned body env file) env.today
      (str_trim body.article_url) (str_to_lower post.platform) (str_trim body.agent_name))

/-- The claim record an accepted submission appends. -/
def submit_new_claim (body : Body) (env : Env) : Claim :=
  { claim_id := env.new_claim_id
    agent_name := (str_trim body.agent_name)
    lightning_address := (str_trim body.lightning_address)
    article_url := (str_trim body.article_url)
    posts := body.posts
    claim_type := (str_trim body.claim_type)
    sats_claimed := ((rates_lookup (str_trim body.claim_type)).map
      (fun r => r.sats)).getD 0
    status := "pending_verification"
    contact_email := body.contact_email
    notes := body.notes
    date := env.today
    submitted_at := env.now_iso }

/-- The document an accepted submission persists: the pruned document
with the new claim appended, the totals bumped incrementally, and the
submission timestamp recorded in the agent rate window. -/
def submit_committed (body : Body) (env : Env) (file : StoredFile) :
    LedgerData :=
  let data2 := submit_pruned body env file
  { data2 with
    claims := data2.claims ++ [submit_new_claim body env]
    totals := { data2.totals with
      claims_count := data2.totals.claims_count + 1
      sats_pending := data2.totals.sats_pending +
        (submit_new_claim body env).sats_claimed }
    rate_limits := _record_claim_for_rate_limit data2.rate_limits
      (str_trim body.agent_name) env.now_ts }

/-- The acceptance response of submit_claim. -/
def accept_resp (body : Body) (env : Env) : SubmitResp :=
  { status := "pending_verification"
    errors := none
    claim_id := some env.new_claim_id
    claim_type := some (str_trim body.claim_type)
    sats_claimed := some (submit_new_claim body env).sats_claimed
    payment_method := some "Lightning Network"
    lightning_address := some (str_trim body.lightning_address)
    message := some ("Claim received. " ++
      toString (submit_new_claim body env).sats_claimed ++
      " sats pending verification. You will receive payment once your post is verified.")
    check_status := some ("GET /v1/earn/status/" ++ env.new_claim_id) }

lemma isEmpty_false_of_ne {l : List String} (h : l ≠ []) :
    l.isEmpty = false := by
  cases l with
  | nil => exact absurd rfl h
  | cons a t => rfl

/-- Path lemma: any field-validation error returns the collected list
with the persisted file untouched. -/
lemma submit_validation_fail (body : Body) (env : Env)
    (file : StoredFile) (h : collect_errors body ≠ []) :
    submit_claim body env file =
      ({ status := "error", errors := some (collect_errors body) },
       file) := by
  simp only [submit_claim, isEmpty_false_of_ne h]
  rfl

/-- Path lemma: with clean fields and a banned agent, the result is the
single ban error with the persisted file untouched. -/
lemma submit_banned (body : Body) (env : Env) (file : StoredFile)
    (hv : collect_errors body = []) (m : String)
    (hban : _check_banned (_load_claims file) (str_trim body.agent_name) =
      some m) :
    submit_claim body env file =
      ({ status := "error", errors := some [m] }, file) := by
  simp only [submit_claim, hv, List.isEmpty_nil, if_true]
  simp only [submit_checked, hban]

/-- The result of _check_rate_limit written as a pair of the error
option and the pruned document. -/
lemma check_rate_limit_spec (data : LedgerData) (agent : String)
    (now : Int) :
    _check_rate_limit data agent now =
      (if (check_recent data agent now).length ≥
          MAX_CLAIMS_PER_AGENT_PER_HOUR then
        some (rate_limit_message agent (check_recent data agent now).length)
       else none,
       { data with
         rate_limits := dict_set data.rate_limits agent
           (check_recent data agent now) }) := by
  simp only [_check_rate_limit, check_recent]
  split <;> rfl

/-- Path lemma: with clean fields, an unbanned agent, and a full rate
window, the result is the single rate-limit error and the persisted
file is the pruned document. -/
lemma submit_rate_limited (body : Body) (env : Env) (file : StoredFile)
    (hv : collect_errors body = [])
    (hban : _check_banned (_load_claims file) (str_trim body.agent_name) = none)
    (hn : (submit_recent body env file).length ≥
      MAX_CLAIMS_PER_AGENT_PER_HOUR) :
    submit_claim body env file =
      ({ status := "error",
         errors := some [rate_limit_message (str_trim body.agent_name)
           (submit_recent body env file).length] },
       StoredFile.valid (submit_pruned body env file)) := by
  simp only [submit_recent] at hn
  simp only [submit_claim, hv, List.isEmpty_nil, if_true]
  simp only [submit_checked, hban, check_rate_limit_spec, if_pos hn]
  simp only [submit_recent, submit_pruned]

/-- Path lemma: with clean fields, an unbanned agent, a rate window
below the cap, and a failing article check, the result is the single
article error with the persisted file untouched. -/
lemma submit_article_error (body : Body) (env : Env) (file : StoredFile)
    (hv : collect_errors body = [])
    (hban : _check_banned (_load_claims file) (str_trim body.agent_name) = none)
    (hn : (submit_recent body env file).length <
      MAX_CLAIMS_PER_AGENT_PER_HOUR)
    (e : String)
    (hart : _validate_article_slug env (str_trim body.article_url) = some e) :
    submit_claim body env file =
      ({ status := "error", errors := some [e] }, file) := by
  simp only [submit_recent] at hn
  simp only [submit_claim, hv, List.isEmpty_nil, if_true]
  simp only [submit_checked, hban, check_rate_limit_spec,
    if_neg (Nat.not_le.mpr hn), hart]

/-- Path lemma: with clean fields, an unbanned agent, a rate window
below the cap, a passing article check, and a colliding post, the
result is the single duplicate error with the persisted file untouched. -/
lemma submit_duplicate (body : Body) (env : Env) (file : StoredFile)
    (hv : collect_errors body = [])
    (hban : _check_banned (_load_claims file) (str_trim body.agent_name) = none)
    (hn : (submit_recent body env file).length <
      MAX_CLAIMS_PER_AGENT_PER_HOUR)
    (hart : _validate_article_slug env (str_trim body.article_url) = none)
    (p : Post) (hdup : dup_post body env file = some p) :
    submit_claim body env file =
      ({ status := "error",
         errors := some ["Duplicate: " ++ (str_trim body.agent_name) ++
           " already claimed " ++ (str_trim body.article_url) ++ " on " ++
           (str_to_lower p.platform) ++ " today"] }, file) := by
  simp only [submit_recent] at hn
  simp only [dup_post, submit_pruned, submit_recent] at hdup
  simp only [submit_claim, hv, List.isEmpty_nil, if_true]
  simp only [submit_checked, hban, check_rate_limit_spec,
    if_neg (Nat.not_le.mpr hn), hart, hdup]

/-- Path lemma: with clean fields and every fraud check passing, the
submission is accepted and the committed document is persisted. -/
lemma submit_accept (body : Body) (env : Env) (file : StoredFile)
    (hv : collect_errors body = [])
    (hban : _check_banned (_load_claims file) (str_trim body.agent_name) = none)
    (hn : (submit_recent body env file).length <
      MAX_CLAIMS_PER_AGENT_PER_HOUR)
    (hart : _validate_article_slug env (str_trim body.article_url) = none)
    (hdup : dup_post body env file = none) :
    submit_claim body env file =
      (accept_resp body env,
       StoredFile.valid (submit_committed body env file)) := by
  simp only [submit_recent] at hn
  simp only [dup_post, submit_pruned, submit_recent] at hdup
  simp only [submit_claim, hv, List.isEmpty_nil, if_true]
  simp only [submit_checked, hban, check_rate_limit_spec,
    if_neg (Nat.not_le.mpr hn), hart, hdup]
  simp only [accept_resp, submit_committed, submit_new_claim,
    submit_pruned, submit_recent]

/-- A clean validation pass guarantees the claim type is a RATES key. -/
lemma rates_some_of_valid (body : Body)
    (hv : collect_errors body = []) :
    ∃ rt, rates_lookup (str_trim body.claim_type) = some rt := by
  simp only [collect_errors] at hv
  have h2 := (List.append_eq_nil.mp hv).1
  have hct := (List.append_eq_nil.mp h2).2
  cases hb : (str_trim body.claim_type == "") with
  | true => rw [hb] at hct; simp at hct
  | false =>
    rw [hb] at hct
    simp only [Bool.false_eq_true, if_false] at hct
    cases hr : rates_lookup (str_trim body.claim_type) with
    | some rt => exact ⟨rt, rfl⟩
    | none => rw [hr] at hct; simp at hct

/-- Splitting the by-status sum over an appended claim. -/
lemma sats_for_status_append (cs : List Claim) (c : Claim) (s : String) :
    sats_for_status (cs ++ [c]) s =
      sats_for_status cs s +
        (if c.status = s then c.sats_claimed else 0) := by
  by_cases h : c.status = s <;>
    simp [sats_for_status, List.filter_append, h]

/-- Setting a key whose head entry does not match pushes inside. -/
lemma dict_set_cons_ne {α : Type} (kv : String × α) (t : List (String × α))
    (k : String) (v : α) (hk : (kv.1 == k) = false) :
    dict_set (kv :: t) k v = kv :: dict_set t k v := by
  have hk' : ¬ (kv.1 = k) := by simpa using hk
  unfold dict_set
  by_cases ht : t.any (fun kv => kv.1 == k) = true
  · simp [List.any_cons, hk, ht, hk']
  · simp [List.any_cons, hk, ht, hk']

/-- Lookup skips a non-matching head entry. -/
lemma dict_get_cons_ne {α : Type} (kv : String × α) (t : List (String × α))
    (k : String) (d : α) (hk : (kv.1 == k) = false) :
    dict_get (kv :: t) k d = dict_get t k d := by
  unfold dict_get
  simp only [List.find?, hk]

/-- Reading back the key just written into a dict. -/
lemma dict_get_set {α : Type} (m : List (String × α)) (k : String)
    (v : α) (d : α) : dict_get (dict_set m k v) k d = v := by
  induction m with
  | nil => simp [dict_get, dict_set, List.find?]
  | cons kv t ih =>
    by_cases hk : (kv.1 == k) = true
    · unfold dict_set
      rw [if_pos (by simp [List.any_cons, hk])]
      simp only [List.map_cons, hk, if_true]
      unfold dict_get
      simp [List.find?]
    · rw [dict_set_cons_ne kv t k v (by simp_all),
        dict_get_cons_ne kv _ k d (by simp_all)]
      exact ih

/-! Concrete fixtures used by the witnesses and counterexamples. -/

/-- A submission that passes every field validation. -/
def w_body : Body :=
  { agent_name := "alice"
    lightning_address := "a@b.co"
    article_url := "https://theagenttimes.com/my-article"
    posts := [{ platform := "x", url := "https://x.com/p/1" }]
    claim_type := "link_post" }

/-- A concrete environment: the catalog knows the submitted article. -/
def w_env : Env :=
  { now_ts := 1000000
    now_iso := "2026-02-16T00:16:40+00:00"
    today := "2026-02-16"
    new_claim_id := "cid1"
    data_import_ok := true
    article_ids := ["my-article"]
    article_urls := [] }

/-- C10: if field validation produces any error, submit_claim returns
the collected error list and the persisted ledger file is exactly
unchanged (the source returns before _load_claims or _save_claims is
ever called). -/
theorem c10_validation_errors_leave_state_unchanged (body : Body)
    (env : Env) (file : StoredFile)
    (h : collect_errors body ≠ []) :
    (submit_claim body env file).1 =
      { status := "error", errors := some (collect_errors body) } ∧
    (submit_claim body env file).2 = file := by
  rw [submit_validation_fail body env file h]
  exact ⟨rfl, rfl⟩

/-- Witness for C10 at a concrete invalid submission (empty agent
name, and more): the collected errors come back and the file stays
missing. -/
theorem c10_witness :
    collect_errors { agent_name := "" } ≠ [] ∧
    (submit_claim { agent_name := "" } w_env StoredFile.missing).2 =
      StoredFile.missing :=
  ⟨by decide,
   (c10_validation_errors_leave_state_unchanged
     { agent_name := "" } w_env StoredFile.missing (by decide)).2⟩

/-- C4: a banned agent (ban-list membership compared case
insensitively) is rejected with the single permanent-ban error, even
when every field validation passed, and the persisted file is exactly
unchanged by the attempt. -/
theorem c4_banned_always_rejected (body : Body) (env : Env)
    (file : StoredFile)
    (hv : collect_errors body = [])
    (hb : ((_load_claims file).banned_agents.map
      (fun b => (str_to_lower b))).contains
        (str_to_lower (str_trim body.agent_name)) = true) :
    submit_claim body env file =
      ({ status := "error",
         errors := some ["Agent \x27" ++ (str_trim body.agent_name) ++
           "\x27 is permanently banned from the earn program for fraud."] },
       file) := by
  refine submit_banned body env file hv _ ?_
  simp only [_check_banned, hb, if_true]

/-- Witness for C4: agent alice, banned as ALICE, with an otherwise
valid and non-duplicate submission, is rejected and the file is
unchanged. -/
theorem c4_witness :
    collect_errors w_body = [] ∧
    ((_load_claims (StoredFile.valid { _empty_data with
        banned_agents := ["ALICE"] })).banned_agents.map
      (fun b => (str_to_lower b))).contains
        (str_to_lower (str_trim w_body.agent_name)) = true ∧
    submit_claim w_body w_env (StoredFile.valid { _empty_data with
        banned_agents := ["ALICE"] }) =
      ({ status := "error",
         errors := some ["Agent \x27alice\x27 is permanently banned from the earn program for fraud."] },
       StoredFile.valid { _empty_data with banned_agents := ["ALICE"] }) :=
  ⟨by decide, by decide,
   c4_banned_always_rejected w_body w_env
     (StoredFile.valid { _empty_data with banned_agents := ["ALICE"] })
     (by decide) (by decide)⟩

/-- Counterexample for C8: on a corrupt (unreadable or undecodable)
persisted document the load degrades to the empty default, but the
event is not surfaced to operators: the list of emitted log events is
empty, refuting the claim that the corrupt-state event is logged. -/
theorem c8_counterexample :
    ¬ ((_load_claims_with_log StoredFile.corrupt).1 = _empty_data ∧
       (_load_claims_with_log StoredFile.corrupt).2 ≠ []) := by
  intro h
  exact h.2 rfl

/-- C8 as amended: loading a corrupt persisted document degrades to the
safe empty-state default (empty claims, zero totals, empty ban list,
empty rate windows) rather than failing, but the corrupt-state event is
swallowed silently: the exception handler emits no log event. -/
theorem c8_corrupt_load_defaults_silently :
    _load_claims_with_log StoredFile.corrupt = (_empty_data, []) := rfl

/-- C1: the totals invariant is preserved by every mutating operation.
If the loaded document satisfies the invariant, then the document
persisted by submit_claim still satisfies it (every rejection path
leaves the totals and claims untouched; the acceptance path bumps
sats_pending by exactly the new pending claim amount), and the document
persisted by reject_agent_claims satisfies it unconditionally because
the totals are recomputed from a full scan of the claim list. -/
theorem c1_totals_invariant_preserved (body : Body) (env env2 : Env)
    (agent reason : String) (file : StoredFile)
    (hinv : totals_invariant (_load_claims file)) :
    totals_invariant (_load_claims (submit_claim body env file).2) ∧
    totals_invariant
      (_load_claims (reject_agent_claims agent reason env2 file).2) := by
  constructor
  · by_cases hv : collect_errors body = []
    · cases hban : _check_banned (_load_claims file)
        (str_trim body.agent_name) with
      | some m =>
        rw [submit_banned body env file hv m hban]
        exact hinv
      | none =>
        by_cases hn : (submit_recent body env file).length ≥
            MAX_CLAIMS_PER_AGENT_PER_HOUR
        · rw [submit_rate_limited body env file hv hban hn]
          exact hinv
        · cases hart : _validate_article_slug env
            (str_trim body.article_url) with
          | some e =>
            rw [submit_article_error body env file hv hban
              (Nat.not_le.mp hn) e hart]
            exact hinv
          | none =>
            cases hdup : dup_post body env file with
            | some p =>
              rw [submit_duplicate body env file hv hban
                (Nat.not_le.mp hn) hart p hdup]
              exact hinv
            | none =>
              rw [submit_accept body env file hv hban
                (Nat.not_le.mp hn) hart hdup]
              obtain ⟨hp, hq⟩ := hinv
              constructor
              · show (_load_claims file).totals.sats_pending +
                    (submit_new_claim body env).sats_claimed =
                  sats_for_status ((_load_claims file).claims ++
                    [submit_new_claim body env]) "pending_verification"
                rw [sats_for_status_append, ← hp]
                simp [submit_new_claim]
              · show (_load_claims file).totals.sats_paid =
                  sats_for_status ((_load_claims file).claims ++
                    [submit_new_claim body env]) "paid"
                rw [sats_for_status_append, ← hq]
                simp [submit_new_claim]
    · rw [submit_validation_fail body env file hv]
      exact hinv
  · exact ⟨rfl, rfl⟩

/-- Witness for C1 at concrete inputs: starting from a missing file
(the empty document, which satisfies the invariant), both operations
yield documents satisfying the invariant. -/
theorem c1_witness :
    totals_invariant (_load_claims StoredFile.missing) ∧
    totals_invariant
      (_load_claims (submit_claim w_body w_env StoredFile.missing).2) ∧
    totals_invariant (_load_claims
      (reject_agent_claims "alice" "fraud" w_env StoredFile.missing).2) :=
  ⟨by decide,
   (c1_totals_invariant_preserved w_body w_env w_env "alice" "fraud"
     StoredFile.missing (by decide)).1,
   (c1_totals_invariant_preserved w_body w_env w_env "alice" "fraud"
     StoredFile.missing (by decide)).2⟩

/-- C6: every submit_claim result is exactly one of two shapes. An
error result carries status error and a nonempty error list, with none
of the acceptance keys present; an acceptance carries the fresh claim
id, the submitted claim kind, the amount copied from the RATES table,
the pending status (the literal pending_verification, which the spec
abbreviates to pending), and the check-status reference, with no errors
key. The two shapes are mutually exclusive since one has an errors list
and the other has none. -/
theorem c6_result_exactly_one_shape (body : Body) (env : Env)
    (file : StoredFile) :
    ((submit_claim body env file).1.status = "error" ∧
     (∃ errs, (submit_claim body env file).1.errors = some errs ∧
       errs ≠ []) ∧
     (submit_claim body env file).1.claim_id = none ∧
     (submit_claim body env file).1.claim_type = none ∧
     (submit_claim body env file).1.sats_claimed = none ∧
     (submit_claim body env file).1.check_status = none) ∨
    ((submit_claim body env file).1.errors = none ∧
     (submit_claim body env file).1.status = "pending_verification" ∧
     (submit_claim body env file).1.claim_id = some env.new_claim_id ∧
     (submit_claim body env file).1.claim_type =
       some (str_trim body.claim_type) ∧
     (∃ rt, rates_lookup (str_trim body.claim_type) = some rt ∧
       (submit_claim body env file).1.sats_claimed = some rt.sats) ∧
     (submit_claim body env file).1.check_status =
       some ("GET /v1/earn/status/" ++ env.new_claim_id)) := by
  by_cases hv : collect_errors body = []
  · cases hban : _check_banned (_load_claims file)
      (str_trim body.agent_name) with
    | some m =>
      rw [submit_banned body env file hv m hban]
      exact Or.inl ⟨rfl, ⟨[m], rfl, by simp⟩, rfl, rfl, rfl, rfl⟩
    | none =>
      by_cases hn : (submit_recent body env file).length ≥
          MAX_CLAIMS_PER_AGENT_PER_HOUR
      · rw [submit_rate_limited body env file hv hban hn]
        exact Or.inl ⟨rfl, ⟨_, rfl, by simp⟩, rfl, rfl, rfl, rfl⟩
      · cases hart : _validate_article_slug env
          (str_trim body.article_url) with
        | some e =>
          rw [submit_article_error body env file hv hban
            (Nat.not_le.mp hn) e hart]
          exact Or.inl ⟨rfl, ⟨[e], rfl, by simp⟩, rfl, rfl, rfl, rfl⟩
        | none =>
          cases hdup : dup_post body env file with
          | some p =>
            rw [submit_duplicate body env file hv hban
              (Nat.not_le.mp hn) hart p hdup]
            exact Or.inl ⟨rfl, ⟨_, rfl, by simp⟩, rfl, rfl, rfl, rfl⟩
          | none =>
            rw [submit_accept body env file hv hban
              (Nat.not_le.mp hn) hart hdup]
            obtain ⟨rt, hrt⟩ := rates_some_of_valid body hv
            refine Or.inr ⟨rfl, rfl, rfl, rfl, ⟨rt, hrt, ?_⟩, rfl⟩
            show some (submit_new_claim body env).sats_claimed =
              some rt.sats
            simp [submit_new_claim, hrt]
  · rw [submit_validation_fail body env file hv]
    exact Or.inl ⟨rfl, ⟨collect_errors body, rfl, hv⟩, rfl, rfl, rfl, rfl⟩

/-- C3: the rate-limit characterization. First, for any document,
agent and time, the rate-limit check passes (returns no error) exactly
when the agent has fewer than the cap (10) of recorded timestamps
strictly inside the trailing one-hour window. Second, inside
submit_claim (clean fields, unbanned agent): a full window rejects the
submission with the single rate-limit error, and once the window has
fewer than the cap of recent entries an otherwise-valid non-duplicate
submission is accepted. -/
theorem c3_rate_limit_characterization (data : LedgerData)
    (agent : String) (now : Int) (body : Body) (env : Env)
    (file : StoredFile)
    (hv : collect_errors body = [])
    (hban : _check_banned (_load_claims file)
      (str_trim body.agent_name) = none) :
    ((_check_rate_limit data agent now).1 = none ↔
      (check_recent data agent now).length <
        MAX_CLAIMS_PER_AGENT_PER_HOUR) ∧
    ((submit_recent body env file).length ≥
        MAX_CLAIMS_PER_AGENT_PER_HOUR →
      submit_claim body env file =
        ({ status := "error",
           errors := some [rate_limit_message (str_trim body.agent_name)
             (submit_recent body env file).length] },
         StoredFile.valid (submit_pruned body env file))) ∧
    ((submit_recent body env file).length <
        MAX_CLAIMS_PER_AGENT_PER_HOUR →
      _validate_article_slug env (str_trim body.article_url) = none →
      dup_post body env file = none →
      submit_claim body env file =
        (accept_resp body env,
         StoredFile.valid (submit_committed body env file))) := by
  refine ⟨?_, ?_, ?_⟩
  · rw [check_rate_limit_spec]
    by_cases h : (check_recent data agent now).length ≥
        MAX_CLAIMS_PER_AGENT_PER_HOUR
    · simp [h, Nat.not_lt.mpr h]
    · simp [h, Nat.not_le.mp h]
  · intro hn
    exact submit_rate_limited body env file hv hban hn
  · intro hn hart hdup
    exact submit_accept body env file hv hban hn hart hdup

/-- A persisted document whose alice rate window holds the cap (10) of
fresh timestamps, one hour before w_env.now_ts at the earliest. -/
def c3_file : StoredFile := StoredFile.valid
  { _empty_data with
    rate_limits := [("alice", [996500, 996900, 997300, 997700, 998100,
      998500, 998900, 999300, 999700, 999900])] }

/-- Witness for C3: with ten timestamps inside the trailing hour the
check fails and the eleventh submission is rejected with the rate-limit
error; the general characterization is applied at these concrete
inputs. -/
theorem c3_witness :
    collect_errors w_body = [] ∧
    _check_banned (_load_claims c3_file) (str_trim w_body.agent_name) =
      none ∧
    (((_check_rate_limit (_load_claims c3_file) "alice"
        w_env.now_ts).1 = none ↔
      (check_recent (_load_claims c3_file) "alice"
        w_env.now_ts).length < MAX_CLAIMS_PER_AGENT_PER_HOUR) ∧
     ((submit_recent w_body w_env c3_file).length ≥
         MAX_CLAIMS_PER_AGENT_PER_HOUR →
       submit_claim w_body w_env c3_file =
         ({ status := "error",
            errors := some [rate_limit_message
              (str_trim w_body.agent_name)
              (submit_recent w_body w_env c3_file).length] },
          StoredFile.valid (submit_pruned w_body w_env c3_file))) ∧
     ((submit_recent w_body w_env c3_file).length <
         MAX_CLAIMS_PER_AGENT_PER_HOUR →
       _validate_article_slug w_env (str_trim w_body.article_url) =
         none →
       dup_post w_body w_env c3_file = none →
       submit_claim w_body w_env c3_file =
         (accept_resp w_body w_env,
          StoredFile.valid (submit_committed w_body w_env c3_file)))) :=
  ⟨by decide, by decide,
   c3_rate_limit_characterization (_load_claims c3_file) "alice"
     w_env.now_ts w_body w_env c3_file (by decide) (by decide)⟩

/-- A stored claim colliding with the w_body submission (same article,
platform x, same day), with a chosen agent name and status. -/
def c2_stored_claim (agent status : String) : Claim :=
  { claim_id := "old"
    agent_name := agent
    lightning_address := "a@b.co"
    article_url := "https://theagenttimes.com/my-article"
    posts := [{ platform := "x", url := "https://x.com/p/0" }]
    claim_type := "link_post"
    sats_claimed := 500
    status := status
    contact_email := ""
    notes := ""
    date := "2026-02-16"
    submitted_at := "t0" }

/-- A ledger whose only claim is a rejected collision by alice. -/
def c2_file_rejected : StoredFile := StoredFile.valid
  { _empty_data with claims := [c2_stored_claim "alice" "rejected"] }

/-- A ledger whose only claim is an accepted collision by Alice (same
name as the submitter alice up to letter case). -/
def c2_file_case : StoredFile := StoredFile.valid
  { _empty_data with
    claims := [c2_stored_claim "Alice" "pending_verification"] }

/-- Counterexample for C2, refuting both halves of the claim as
stated. First, a stored claim whose status is rejected (so not an
accepted claim) still blocks the same submission with a duplicate
error, refuting that only accepted claims block. Second, an accepted
stored claim by the same agent up to letter case (Alice versus alice)
does not block: the submission is accepted, refuting the
case-insensitive agent comparison. -/
theorem c2_counterexample :
    ((c2_stored_claim "alice" "rejected").status = "rejected" ∧
     (submit_claim w_body w_env c2_file_rejected).1 =
       { status := "error",
         errors := some ["Duplicate: alice already claimed https://theagenttimes.com/my-article on x today"] } ∧
     (submit_claim w_body w_env c2_file_rejected).2 = c2_file_rejected) ∧
    ((str_to_lower (c2_stored_claim "Alice"
        "pending_verification").agent_name) =
      (str_to_lower (str_trim w_body.agent_name)) ∧
     (c2_stored_claim "Alice" "pending_verification").status ≠
       "rejected" ∧
     (submit_claim w_body w_env c2_file_case).1.errors = none) := by
  decide

/-- C2 as amended: with clean fields, an unbanned agent, a rate window
below the cap, and a known article, a submission is blocked with a
duplicate error (and the persisted file untouched) exactly when some
stored claim of any status collides with one of its posts under
_check_duplicate, whose comparison is by exact (case-sensitive) agent
name, exact article URL, exact day bucket, and the lowercased submitted
platform against the stored post platform; when no post collides, the
submission is accepted. -/
theorem c2_duplicate_check_amended (body : Body) (env : Env)
    (file : StoredFile)
    (hv : collect_errors body = [])
    (hban : _check_banned (_load_claims file)
      (str_trim body.agent_name) = none)
    (hn : (submit_recent body env file).length <
      MAX_CLAIMS_PER_AGENT_PER_HOUR)
    (hart : _validate_article_slug env (str_trim body.article_url) =
      none) :
    ((∃ p ∈ body.posts,
        _check_duplicate (submit_pruned body env file) env.today
          (str_trim body.article_url) (str_to_lower p.platform)
          (str_trim body.agent_name) = true) →
      ∃ p, dup_post body env file = some p ∧
        submit_claim body env file =
          ({ status := "error",
             errors := some ["Duplicate: " ++
               (str_trim body.agent_name) ++ " already claimed " ++
               (str_trim body.article_url) ++ " on " ++
               (str_to_lower p.platform) ++ " today"] }, file)) ∧
    ((¬ ∃ p ∈ body.posts,
        _check_duplicate (submit_pruned body env file) env.today
          (str_trim body.article_url) (str_to_lower p.platform)
          (str_trim body.agent_name) = true) →
      submit_claim body env file =
        (accept_resp body env,
         StoredFile.valid (submit_committed body env file))) := by
  constructor
  · intro hex
    have hsome : (dup_post body env file).isSome := by
      unfold dup_post
      exact List.find?_isSome.mpr hex
    obtain ⟨p, hp⟩ := Option.isSome_iff_exists.mp hsome
    exact ⟨p, hp, submit_duplicate body env file hv hban hn hart p hp⟩
  · intro hnex
    have hdup : dup_post body env file = none := by
      unfold dup_post
      exact List.find?_eq_none.mpr
        (fun x hx hpx => hnex ⟨x, hx, hpx⟩)
    exact submit_accept body env file hv hban hn hart hdup

/-- Witness for C2 as amended, at the rejected-collision ledger: the
collision exists, and applying the theorem yields the duplicate error
with the file untouched. -/
theorem c2_witness :
    (∃ p ∈ w_body.posts,
      _check_duplicate (submit_pruned w_body w_env c2_file_rejected)
        w_env.today (str_trim w_body.article_url)
        (str_to_lower p.platform) (str_trim w_body.agent_name) =
        true) ∧
    (∃ p, dup_post w_body w_env c2_file_rejected = some p ∧
      submit_claim w_body w_env c2_file_rejected =
        ({ status := "error",
           errors := some ["Duplicate: " ++
             (str_trim w_body.agent_name) ++ " already claimed " ++
             (str_trim w_body.article_url) ++ " on " ++
             (str_to_lower p.platform) ++ " today"] },
         c2_file_rejected)) :=
  ⟨by decide,
   (c2_duplicate_check_amended w_body w_env c2_file_rejected
     (by decide) (by decide) (by decide) (by decide)).1 (by decide)⟩

/-- The w_body submission pointed at an article unknown to the
catalog (slug not-known), with every field validation still passing. -/
def c7_body : Body :=
  { w_body with article_url := "https://theagenttimes.com/not-known" }

/-- A ledger whose alice rate window holds one stale timestamp (epoch
100, far outside the trailing hour before w_env.now_ts). -/
def c7_file : StoredFile := StoredFile.valid
  { _empty_data with rate_limits := [("alice", [100])] }

/-- Counterexample for C7: on an unknown-article rejection the rate
check has pruned the window (to the empty list), but the function
returns without saving, so the persisted file still holds the stale
timestamp; the pruned window state is NOT what ends up persisted. -/
theorem c7_counterexample :
    submit_recent c7_body w_env c7_file = [] ∧
    (submit_claim c7_body w_env c7_file).1.errors =
      some ["Unknown article: \x27not-known\x27 is not a published article on The Agent Times"] ∧
    (submit_claim c7_body w_env c7_file).2 = c7_file ∧
    dict_get (_load_claims
      (submit_claim c7_body w_env c7_file).2).rate_limits "alice" [] =
      [100] := by
  decide

/-- C7 as amended: whenever the rate-limit check runs (clean fields,
unbanned agent), the in-memory window is pruned, but the pruned state
is persisted only on the two paths that save: a rate-limit rejection
persists exactly the pruned window, and an acceptance persists the
pruned window with the new submission timestamp appended. On an
unknown-article rejection and on a duplicate rejection the function
returns without saving, so the persisted file, stale timestamps
included, is exactly unchanged. -/
theorem c7_pruned_window_persistence (body : Body) (env : Env)
    (file : StoredFile)
    (hv : collect_errors body = [])
    (hban : _check_banned (_load_claims file)
      (str_trim body.agent_name) = none) :
    ((submit_recent body env file).length ≥
        MAX_CLAIMS_PER_AGENT_PER_HOUR →
      (submit_claim body env file).2 =
        StoredFile.valid (submit_pruned body env file) ∧
      dict_get (submit_pruned body env file).rate_limits
        (str_trim body.agent_name) [] = submit_recent body env file) ∧
    ((submit_recent body env file).length <
        MAX_CLAIMS_PER_AGENT_PER_HOUR →
      ∀ e, _validate_article_slug env (str_trim body.article_url) =
        some e →
      (submit_claim body env file).2 = file) ∧
    ((submit_recent body env file).length <
        MAX_CLAIMS_PER_AGENT_PER_HOUR →
      _validate_article_slug env (str_trim body.article_url) = none →
      ∀ p, dup_post body env file = some p →
      (submit_claim body env file).2 = file) ∧
    ((submit_recent body env file).length <
        MAX_CLAIMS_PER_AGENT_PER_HOUR →
      _validate_article_slug env (str_trim body.article_url) = none →
      dup_post body env file = none →
      (submit_claim body env file).2 =
        StoredFile.valid (submit_committed body env file) ∧
      dict_get (submit_committed body env file).rate_limits
        (str_trim body.agent_name) [] =
        submit_recent body env file ++ [env.now_ts]) := by
  refine ⟨?_, ?_, ?_, ?_⟩
  · intro hn
    rw [submit_rate_limited body env file hv hban hn]
    refine ⟨rfl, ?_⟩
    show dict_get (dict_set (_load_claims file).rate_limits
      (str_trim body.agent_name) (submit_recent body env file))
      (str_trim body.agent_name) [] = submit_recent body env file
    exact dict_get_set _ _ _ _
  · intro hn e hart
    rw [submit_article_error body env file hv hban hn e hart]
  · intro hn hart p hdup
    rw [submit_duplicate body env file hv hban hn hart p hdup]
  · intro hn hart hdup
    rw [submit_accept body env file hv hban hn hart hdup]
    refine ⟨rfl, ?_⟩
    show dict_get (_record_claim_for_rate_limit
      (dict_set (_load_claims file).rate_limits
        (str_trim body.agent_name) (submit_recent body env file))
      (str_trim body.agent_name) env.now_ts)
      (str_trim body.agent_name) [] =
      submit_recent body env file ++ [env.now_ts]
    unfold _record_claim_for_rate_limit
    rw [dict_get_set, dict_get_set]

/-- Witness for C7 as amended at the stale-window ledger: the
unknown-article rejection leaves the persisted file unchanged. -/
theorem c7_witness :
    collect_errors c7_body = [] ∧
    (submit_recent c7_body w_env c7_file).length <
      MAX_CLAIMS_PER_AGENT_PER_HOUR ∧
    (submit_claim c7_body w_env c7_file).2 = c7_file :=
  ⟨by decide, by decide,
   (c7_pruned_window_persistence c7_body w_env c7_file (by decide)
     (by decide)).2.1 (by decide)
     "Unknown article: \x27not-known\x27 is not a published article on The Agent Times"
     (by decide)⟩

/-- Loading a valid stored document returns it unchanged. -/
lemma load_valid (d : LedgerData) :
    _load_claims (StoredFile.valid d) = d := rfl

/-- The claim list after the rejection loop of reject_agent_claims. -/
def reject_new_claims (agent_name reason : String) (env : Env)
    (d : LedgerData) : List Claim :=
  d.claims.map (fun claim =>
    if _should_reject agent_name claim then
      { claim with
        status := "rejected"
        rejected_reason := some reason
        rejected_at := some env.now_iso }
    else claim)

/-- The document reject_agent_claims persists. -/
def reject_result_data (agent_name reason : String) (env : Env)
    (d : LedgerData) : LedgerData :=
  { claims := reject_new_claims agent_name reason env d
    totals := recompute_totals (reject_new_claims agent_name reason env d)
    banned_agents :=
      if (d.banned_agents.map (fun b => (str_to_lower b))).contains
          (str_to_lower agent_name) then d.banned_agents
      else d.banned_agents ++ [agent_name]
    rate_limits :=
      if dict_contains d.rate_limits agent_name then
        dict_del d.rate_limits agent_name
      else d.rate_limits }

/-- reject_agent_claims written as its response and persisted document. -/
lemma reject_agent_claims_spec (agent_name reason : String) (env : Env)
    (file : StoredFile) :
    reject_agent_claims agent_name reason env file =
      ({ status := "rejected"
         agent_name := agent_name
         claims_rejected := ((_load_claims file).claims.filter
           (_should_reject agent_name)).length
         sats_forfeited := (((_load_claims file).claims.filter
           (_should_reject agent_name)).map
           (fun c => c.sats_claimed)).sum
         banned := true
         reason := reason
         new_totals := recompute_totals (reject_new_claims agent_name
           reason env (_load_claims file)) },
       StoredFile.valid (reject_result_data agent_name reason env
         (_load_claims file))) := rfl

/-- After one rejection run for an agent, no surviving claim matches
the rejection condition for the same agent under case folding: every
claim of the agent now has status rejected, and every other claim
fails the name comparison. -/
lemma should_reject_false_after (agent1 agent2 reason1 : String)
    (env1 : Env) (d : LedgerData)
    (hcase : str_to_lower agent2 = str_to_lower agent1) :
    ∀ c ∈ reject_new_claims agent1 reason1 env1 d,
      _should_reject agent2 c = false := by
  intro c hc
  simp only [reject_new_claims, List.mem_map] at hc
  obtain ⟨c0, hc0, rfl⟩ := hc
  by_cases h : _should_reject agent1 c0 = true
  · rw [if_pos h]
    unfold _should_reject
    simp
  · rw [if_neg h]
    have h' : _should_reject agent1 c0 = false := by simpa using h
    unfold _should_reject at h' ⊢
    rw [hcase]
    exact h'

/-- C5: reject_agent_claims is idempotent. A second run on the same
agent (letter case may differ) reports zero rejected claims and zero
forfeited sats, and leaves the claim list (hence every status and
rejection field), the recomputed totals, and the ban list of the
persisted document unchanged. -/
theorem c5_reject_idempotent (agent1 agent2 reason1 reason2 : String)
    (env1 env2 : Env) (file : StoredFile)
    (hcase : str_to_lower agent2 = str_to_lower agent1) :
    (reject_agent_claims agent2 reason2 env2
      (reject_agent_claims agent1 reason1 env1 file).2).1.claims_rejected
      = 0 ∧
    (reject_agent_claims agent2 reason2 env2
      (reject_agent_claims agent1 reason1 env1 file).2).1.sats_forfeited
      = 0 ∧
    (_load_claims (reject_agent_claims agent2 reason2 env2
      (reject_agent_claims agent1 reason1 env1 file).2).2).claims =
      (_load_claims
        (reject_agent_claims agent1 reason1 env1 file).2).claims ∧
    (_load_claims (reject_agent_claims agent2 reason2 env2
      (reject_agent_claims agent1 reason1 env1 file).2).2).totals =
      (_load_claims
        (reject_agent_claims agent1 reason1 env1 file).2).totals ∧
    (_load_claims (reject_agent_claims agent2 reason2 env2
      (reject_agent_claims agent1 reason1 env1 file).2).2).banned_agents
      = (_load_claims
        (reject_agent_claims agent1 reason1 env1 file).2).banned_agents
      := by
  have hkey := should_reject_false_after agent1 agent2 reason1 env1
    (_load_claims file) hcase
  have hfilter : (reject_new_claims agent1 reason1 env1
      (_load_claims file)).filter (_should_reject agent2) = [] :=
    List.filter_eq_nil_iff.mpr (fun a ha => by simp [hkey a ha])
  have hmap : (reject_new_claims agent1 reason1 env1
        (_load_claims file)).map (fun claim =>
        if _should_reject agent2 claim then
          { claim with
            status := "rejected"
            rejected_reason := some reason2
            rejected_at := some env2.now_iso }
        else claim) =
      reject_new_claims agent1 reason1 env1 (_load_claims file) := by
    rw [List.map_congr_left (g := id) (fun a ha => by
      rw [hkey a ha]; rfl), List.map_id]
  rw [reject_agent_claims_spec agent1 reason1 env1 file]
  rw [reject_agent_claims_spec agent2 reason2 env2
    (StoredFile.valid (reject_result_data agent1 reason1 env1
      (_load_claims file)))]
  simp only [load_valid]
  refine ⟨?_, ?_, ?_, ?_, ?_⟩
  · show ((reject_new_claims agent1 reason1 env1
      (_load_claims file)).filter (_should_reject agent2)).length = 0
    rw [hfilter]; rfl
  · show (((reject_new_claims agent1 reason1 env1
      (_load_claims file)).filter (_should_reject agent2)).map
      (fun c => c.sats_claimed)).sum = 0
    rw [hfilter]; rfl
  · show reject_new_claims agent2 reason2 env2
      (reject_result_data agent1 reason1 env1 (_load_claims file)) =
      reject_new_claims agent1 reason1 env1 (_load_claims file)
    unfold reject_new_claims
    exact hmap
  · show recompute_totals (reject_new_claims agent2 reason2 env2
      (reject_result_data agent1 reason1 env1 (_load_claims file))) =
      recompute_totals (reject_new_claims agent1 reason1 env1
        (_load_claims file))
    exact congrArg recompute_totals hmap
  · show (if ((reject_result_data agent1 reason1 env1
        (_load_claims file)).banned_agents.map
        (fun b => (str_to_lower b))).contains (str_to_lower agent2)
        then (reject_result_data agent1 reason1 env1
          (_load_claims file)).banned_agents
        else (reject_result_data agent1 reason1 env1
          (_load_claims file)).banned_agents ++ [agent2]) =
      (reject_result_data agent1 reason1 env1
        (_load_claims file)).banned_agents
    have hmem : ((reject_result_data agent1 reason1 env1
        (_load_claims file)).banned_agents.map
        (fun b => (str_to_lower b))).contains (str_to_lower agent2) =
        true := by
      rw [hcase]
      show ((if ((_load_claims file).banned_agents.map
          (fun b => (str_to_lower b))).contains (str_to_lower agent1)
          then (_load_claims file).banned_agents
          else (_load_claims file).banned_agents ++ [agent1]).map
          (fun b => (str_to_lower b))).contains (str_to_lower agent1) =
        true
      by_cases hC : ((_load_claims file).banned_agents.map
          (fun b => (str_to_lower b))).contains (str_to_lower agent1) =
          true
      · rw [if_pos hC]; exact hC
      · rw [if_neg hC, List.map_append]
        exact List.elem_iff.mpr
          (List.mem_append_right _ (by simp))
    rw [if_pos hmem]

/-- A ledger holding one pending claim by Alice, for the C5 witness. -/
def c5_file : StoredFile := StoredFile.valid
  { _empty_data with
    claims := [{ claim_id := "k1"
                 agent_name := "Alice"
                 lightning_address := "a@b.co"
                 article_url := "https://theagenttimes.com/my-article"
                 posts := [{ platform := "x", url := "https://x.com/p/9" }]
                 claim_type := "link_post"
                 sats_claimed := 500
                 status := "pending_verification"
                 contact_email := ""
                 notes := ""
                 date := "2026-02-16"
                 submitted_at := "t1" }]
    totals := { claims_count := 1, sats_pending := 500, sats_paid := 0 } }

/-- Witness for C5: rejecting alice and then ALICE (case-differing) on
a ledger holding one pending claim by Alice; the second run reports
zero and changes nothing observable. -/
theorem c5_witness :
    str_to_lower "ALICE" = str_to_lower "alice" ∧
    ((reject_agent_claims "ALICE" "spam" w_env
      (reject_agent_claims "alice" "fraud" w_env c5_file).2).1.claims_rejected
      = 0 ∧
    (reject_agent_claims "ALICE" "spam" w_env
      (reject_agent_claims "alice" "fraud" w_env c5_file).2).1.sats_forfeited
      = 0 ∧
    (_load_claims (reject_agent_claims "ALICE" "spam" w_env
      (reject_agent_claims "alice" "fraud" w_env c5_file).2).2).claims =
      (_load_claims
        (reject_agent_claims "alice" "fraud" w_env c5_file).2).claims ∧
    (_load_claims (reject_agent_claims "ALICE" "spam" w_env
      (reject_agent_claims "alice" "fraud" w_env c5_file).2).2).totals =
      (_load_claims
        (reject_agent_claims "alice" "fraud" w_env c5_file).2).totals ∧
    (_load_claims (reject_agent_claims "ALICE" "spam" w_env
      (reject_agent_claims "alice" "fraud" w_env c5_file).2).2).banned_agents
      = (_load_claims
        (reject_agent_claims "alice" "fraud" w_env c5_file).2).banned_agents) :=
  ⟨by decide,
   c5_reject_idempotent "alice" "ALICE" "fraud" "spam" w_env w_env
     c5_file (by decide)⟩

/-- Some claim in the list carries the given agent name. -/
def name_occurs (cs : List Claim) (n : String) : Bool :=
  cs.any (fun c => c.agent_name == n)

lemma filter_eq_nil_of_any_false {α : Type} (p : α → Bool) (l : List α)
    (h : l.any p = false) : l.filter p = [] := by
  refine List.filter_eq_nil_iff.mpr ?_
  intro a ha hpa
  have : l.any p = true := List.any_eq_true.mpr ⟨a, ha, hpa⟩
  rw [h] at this
  exact Bool.false_ne_true this

lemma findIdx_append_split {α : Type} (p : α → Bool) (l1 l2 : List α) :
    (l1 ++ l2).findIdx p =
      if l1.any p = true then l1.findIdx p
      else l1.length + l2.findIdx p := by
  induction l1 with
  | nil => simp
  | cons a t ih =>
    by_cases h : p a = true
    · simp [List.findIdx_cons, h, List.any_cons]
    · have h' : p a = false := by simpa using h
      simp only [List.cons_append, List.findIdx_cons, h', cond_false,
        List.any_cons, Bool.false_or, ih, List.length_cons]
      by_cases ht : t.any p = true
      · simp [ht]
      · have ht' : t.any p = false := by simpa using ht
        simp only [ht', Bool.false_eq_true, if_false]
        omega

lemma findIdx_lt_length_of_any {α : Type} (p : α → Bool) (l : List α)
    (h : l.any p = true) : l.findIdx p < l.length := by
  induction l with
  | nil => simp at h
  | cons a t ih =>
    by_cases hpa : p a = true
    · simp [List.findIdx_cons, hpa]
    · have hpa' : p a = false := by simpa using hpa
      simp only [List.any_cons, hpa', Bool.false_or] at h
      simp only [List.findIdx_cons, hpa', cond_false, List.length_cons]
      exact Nat.succ_lt_succ (ih h)

lemma agent_total_append (cs : List Claim) (c : Claim) (n : String) :
    agent_total (cs ++ [c]) n =
      agent_total cs n +
        (if c.agent_name = n then c.sats_claimed else 0) := by
  by_cases h : c.agent_name = n <;>
    simp [agent_total, List.filter_append, h]

lemma agent_count_append (cs : List Claim) (c : Claim) (n : String) :
    agent_count (cs ++ [c]) n =
      agent_count cs n + (if c.agent_name = n then 1 else 0) := by
  by_cases h : c.agent_name = n <;>
    simp [agent_count, List.filter_append, h]

lemma agent_total_zero_of_not_occurs (cs : List Claim) (n : String)
    (h : name_occurs cs n = false) : agent_total cs n = 0 := by
  unfold agent_total
  rw [filter_eq_nil_of_any_false _ _ h]
  rfl

lemma agent_count_zero_of_not_occurs (cs : List Claim) (n : String)
    (h : name_occurs cs n = false) : agent_count cs n = 0 := by
  unfold agent_count
  rw [filter_eq_nil_of_any_false _ _ h]
  rfl

lemma first_occurrence_append_of_occurs (cs l2 : List Claim)
    (n : String) (h : name_occurs cs n = true) :
    first_occurrence (cs ++ l2) n = first_occurrence cs n := by
  unfold first_occurrence
  rw [findIdx_append_split,
    if_pos (show (cs.any fun c => c.agent_name == n) = true from h)]

lemma first_occurrence_append_new (cs : List Claim) (c : Claim)
    (h : name_occurs cs c.agent_name = false) :
    first_occurrence (cs ++ [c]) c.agent_name = cs.length := by
  unfold first_occurrence
  rw [findIdx_append_split]
  have h' : (cs.any (fun cl => cl.agent_name == c.agent_name)) = false := h
  rw [h']
  simp [List.findIdx_cons]

lemma first_occurrence_lt_length (cs : List Claim) (n : String)
    (h : name_occurs cs n = true) :
    first_occurrence cs n < cs.length :=
  findIdx_lt_length_of_any _ _ h

/-- Invariant of the aggregation loop of get_leaderboard: after
processing a prefix of the claim list, every accumulated entry carries
the running totals of its agent over that prefix, exactly the agents of
the prefix appear, and entries are ordered by first appearance. -/
def group_inv (processed : List Claim) (acc : List AgentAgg) : Prop :=
  (∀ e ∈ acc,
    e.total_sats = agent_total processed e.agent_name ∧
    e.claims = agent_count processed e.agent_name ∧
    name_occurs processed e.agent_name = true) ∧
  (∀ n, name_occurs processed n = true → ∃ e ∈ acc, e.agent_name = n) ∧
  acc.Pairwise (fun a b =>
    first_occurrence processed a.agent_name <
      first_occurrence processed b.agent_name)

lemma group_inv_step (processed : List Claim) (acc : List AgentAgg)
    (c : Claim) (h : group_inv processed acc) :
    group_inv (processed ++ [c]) (_add_claim_to_agents acc c) := by
  obtain ⟨h1, h2, h3⟩ := h
  have hoccs : ∀ n, name_occurs processed n = true →
      name_occurs (processed ++ [c]) n = true := by
    intro n hn
    unfold name_occurs at *
    rw [List.any_append, hn]
    rfl
  have hfo : ∀ n, name_occurs processed n = true →
      first_occurrence (processed ++ [c]) n = first_occurrence processed n :=
    fun n hn => first_occurrence_append_of_occurs processed [c] n hn
  have hoccs_c : name_occurs (processed ++ [c]) c.agent_name = true := by
    unfold name_occurs
    rw [List.any_append]
    simp
  unfold _add_claim_to_agents
  by_cases hmem : acc.any (fun a => a.agent_name == c.agent_name) = true
  · rw [if_pos hmem]
    refine ⟨?_, ?_, ?_⟩
    · intro e' he'
      rw [List.mem_map] at he'
      obtain ⟨e, he, rfl⟩ := he'
      obtain ⟨het, hec, heo⟩ := h1 e he
      by_cases hb : (e.agent_name == c.agent_name) = true
      · rw [if_pos hb]
        have hname : c.agent_name = e.agent_name := (beq_iff_eq.mp hb).symm
        refine ⟨?_, ?_, hoccs _ heo⟩
        · show e.total_sats + c.sats_claimed =
            agent_total (processed ++ [c]) e.agent_name
          rw [agent_total_append, het, if_pos hname]
        · show e.claims + 1 = agent_count (processed ++ [c]) e.agent_name
          rw [agent_count_append, hec, if_pos hname]
      · rw [if_neg hb]
        have hname : ¬ c.agent_name = e.agent_name :=
          fun hh => hb (beq_iff_eq.mpr hh.symm)
        refine ⟨?_, ?_, hoccs _ heo⟩
        · rw [agent_total_append, het, if_neg hname, add_zero]
        · rw [agent_count_append, hec, if_neg hname, Nat.add_zero]
    · intro n hn
      by_cases hp : name_occurs processed n = true
      · obtain ⟨e, he, hen⟩ := h2 n hp
        refine ⟨_, List.mem_map_of_mem _ he, ?_⟩
        by_cases hb : (e.agent_name == c.agent_name) = true
        · rw [if_pos hb]; exact hen
        · rw [if_neg hb]; exact hen
      · have hp' : name_occurs processed n = false := by simpa using hp
        have hcn : c.agent_name = n := by
          unfold name_occurs at hn
          rw [List.any_append] at hn
          have hpp : (processed.any fun cl => cl.agent_name == n) =
              false := hp'
          rw [hpp, Bool.false_or] at hn
          simpa using hn
        obtain ⟨a0, ha0, ha0n⟩ := List.any_eq_true.mp hmem
        refine ⟨_, List.mem_map_of_mem _ ha0, ?_⟩
        rw [if_pos ha0n]
        show a0.agent_name = n
        exact (beq_iff_eq.mp ha0n).trans hcn
    · rw [List.pairwise_map]
      refine h3.imp_of_mem ?_
      intro a b ha hb hab
      by_cases hba : (a.agent_name == c.agent_name) = true <;>
        by_cases hbb : (b.agent_name == c.agent_name) = true <;>
          simp only [hba, hbb, if_true, Bool.not_eq_true,
            Bool.false_eq_true, if_false] <;>
          rw [hfo _ (h1 a ha).2.2, hfo _ (h1 b hb).2.2] <;>
          exact hab
  · rw [if_neg hmem]
    have hnp : name_occurs processed c.agent_name = false := by
      by_contra hcon
      have hcon' : name_occurs processed c.agent_name = true := by
        simpa using hcon
      obtain ⟨e, he, hen⟩ := h2 _ hcon'
      exact hmem (List.any_eq_true.mpr ⟨e, he, beq_iff_eq.mpr hen⟩)
    refine ⟨?_, ?_, ?_⟩
    · intro e' he'
      rw [List.mem_append] at he'
      rcases he' with he | he
      · obtain ⟨het, hec, heo⟩ := h1 e' he
        have hne : ¬ c.agent_name = e'.agent_name := by
          intro hh
          exact hmem (List.any_eq_true.mpr
            ⟨e', he, beq_iff_eq.mpr hh.symm⟩)
        refine ⟨?_, ?_, hoccs _ heo⟩
        · rw [agent_total_append, het, if_neg hne, add_zero]
        · rw [agent_count_append, hec, if_neg hne, Nat.add_zero]
      · rw [List.mem_singleton] at he
        subst he
        refine ⟨?_, ?_, hoccs_c⟩
        · show c.sats_claimed = agent_total (processed ++ [c]) c.agent_name
          rw [agent_total_append,
            agent_total_zero_of_not_occurs _ _ hnp, if_pos rfl, zero_add]
        · show 1 = agent_count (processed ++ [c]) c.agent_name
          rw [agent_count_append,
            agent_count_zero_of_not_occurs _ _ hnp, if_pos rfl,
            Nat.zero_add]
    · intro n hn
      by_cases hp : name_occurs processed n = true
      · obtain ⟨e, he, hen⟩ := h2 n hp
        exact ⟨e, List.mem_append_left _ he, hen⟩
      · have hp' : name_occurs processed n = false := by simpa using hp
        have hcn : c.agent_name = n := by
          unfold name_occurs at hn
          rw [List.any_append] at hn
          have hpp : (processed.any fun cl => cl.agent_name == n) =
              false := hp'
          rw [hpp, Bool.false_or] at hn
          simpa using hn
        exact ⟨_, List.mem_append_right _ (List.mem_singleton_self _), hcn⟩
    · rw [List.pairwise_append]
      refine ⟨?_, ?_, ?_⟩
      · refine h3.imp_of_mem ?_
        intro a b ha hb hab
        rw [hfo _ (h1 a ha).2.2, hfo _ (h1 b hb).2.2]
        exact hab
      · simp
      · intro a ha b hb
        rw [List.mem_singleton] at hb
        subst hb
        show first_occurrence (processed ++ [c]) a.agent_name <
          first_occurrence (processed ++ [c]) c.agent_name
        rw [hfo _ (h1 a ha).2.2, first_occurrence_append_new _ _ hnp]
        exact first_occurrence_lt_length _ _ (h1 a ha).2.2

lemma group_inv_foldl (cs : List Claim) : ∀ (processed : List Claim)
    (acc : List AgentAgg), group_inv processed acc →
    group_inv (processed ++ cs) (cs.foldl _add_claim_to_agents acc) := by
  induction cs with
  | nil => intro processed acc h; simpa using h
  | cons c t ih =>
    intro processed acc h
    have h1 := group_inv_step processed acc c h
    have h2 := ih (processed ++ [c]) (_add_claim_to_agents acc c) h1
    simpa [List.append_assoc] using h2

/-- The grouped list of get_leaderboard satisfies the invariant over
the whole claim list. -/
lemma group_agents_inv (cs : List Claim) :
    group_inv cs (_group_agents cs) := by
  have h0 : group_inv [] [] := by
    refine ⟨by simp, ?_, by simp⟩
    intro n hn
    simp [name_occurs] at hn
  have := group_inv_foldl cs [] [] h0
  simpa [_group_agents] using this

/-- The ranking order of the leaderboard relative to a claim list:
totals weakly descending, ties strictly ordered by first appearance in
the claim list, and pairwise distinct agent names. -/
def ranked_rel (cs : List Claim) (a b : AgentAgg) : Prop :=
  b.total_sats ≤ a.total_sats ∧
  (b.total_sats = a.total_sats →
    first_occurrence cs a.agent_name < first_occurrence cs b.agent_name) ∧
  a.agent_name ≠ b.agent_name

lemma insert_ranked_mem (l : List AgentAgg) (a x : AgentAgg) :
    x ∈ _insert_ranked l a ↔ x ∈ l ∨ x = a := by
  induction l with
  | nil => simp [_insert_ranked]
  | cons b t ih =>
    unfold _insert_ranked
    by_cases h : b.total_sats < a.total_sats
    · rw [if_pos h]
      simp [List.mem_cons]
      tauto
    · rw [if_neg h]
      simp [List.mem_cons, ih]
      tauto

lemma insert_ranked_pairwise (cs : List Claim) (l : List AgentAgg)
    (a : AgentAgg)
    (hl : l.Pairwise (ranked_rel cs))
    (ha1 : ∀ b ∈ l, b.total_sats = a.total_sats →
      first_occurrence cs b.agent_name < first_occurrence cs a.agent_name)
    (ha2 : ∀ b ∈ l, b.agent_name ≠ a.agent_name) :
    (_insert_ranked l a).Pairwise (ranked_rel cs) := by
  induction l with
  | nil => simp [_insert_ranked, ranked_rel]
  | cons b t ih =>
    rw [List.pairwise_cons] at hl
    obtain ⟨hbt, htp⟩ := hl
    unfold _insert_ranked
    by_cases h : b.total_sats < a.total_sats
    · rw [if_pos h]
      rw [List.pairwise_cons]
      constructor
      · intro x hx
        rcases List.mem_cons.mp hx with rfl | hxt
        · exact ⟨le_of_lt h, fun heq => absurd heq (ne_of_lt h),
            (ha2 x (List.mem_cons_self x t)).symm⟩
        · obtain ⟨hle, -, -⟩ := hbt x hxt
          refine ⟨le_of_lt (lt_of_le_of_lt hle h), fun heq => ?_,
            (ha2 x (List.mem_cons_of_mem b hxt)).symm⟩
          omega
      · rw [List.pairwise_cons]
        exact ⟨hbt, htp⟩
    · rw [if_neg h]
      rw [List.pairwise_cons]
      constructor
      · intro x hx
        rcases (insert_ranked_mem t a x).mp hx with hxt | rfl
        · exact hbt x hxt
        · exact ⟨le_of_not_lt h,
            fun heq => ha1 b (List.mem_cons_self b t) heq.symm,
            ha2 b (List.mem_cons_self b t)⟩
      · exact ih htp
          (fun x hx heq => ha1 x (List.mem_cons_of_mem b hx) heq)
          (fun x hx => ha2 x (List.mem_cons_of_mem b hx))

lemma sort_ranked_pairwise_aux (cs : List Claim) :
    ∀ (L acc : List AgentAgg),
    acc.Pairwise (ranked_rel cs) →
    (∀ b ∈ acc, ∀ x ∈ L,
      (b.total_sats = x.total_sats →
        first_occurrence cs b.agent_name <
          first_occurrence cs x.agent_name) ∧
      b.agent_name ≠ x.agent_name) →
    L.Pairwise (fun a b =>
      (a.total_sats = b.total_sats →
        first_occurrence cs a.agent_name <
          first_occurrence cs b.agent_name) ∧
      a.agent_name ≠ b.agent_name) →
    (L.foldl _insert_ranked acc).Pairwise (ranked_rel cs) := by
  intro L
  induction L with
  | nil =>
    intro acc hacc _ _
    simpa using hacc
  | cons a t ih =>
    intro acc hacc hcross hL
    rw [List.pairwise_cons] at hL
    obtain ⟨hat, htp⟩ := hL
    rw [List.foldl_cons]
    apply ih
    · exact insert_ranked_pairwise cs acc a hacc
        (fun b hb heq => (hcross b hb a (List.mem_cons_self a t)).1 heq)
        (fun b hb => (hcross b hb a (List.mem_cons_self a t)).2)
    · intro b hb x hx
      rcases (insert_ranked_mem acc a b).mp hb with hba | rfl
      · exact hcross b hba x (List.mem_cons_of_mem a hx)
      · exact hat x hx
    · exact htp

lemma sort_ranked_mem_aux : ∀ (L acc : List AgentAgg) (x : AgentAgg),
    x ∈ L.foldl _insert_ranked acc → x ∈ acc ∨ x ∈ L := by
  intro L
  induction L with
  | nil =>
    intro acc x hx
    exact Or.inl hx
  | cons a t ih =>
    intro acc x hx
    rw [List.foldl_cons] at hx
    rcases ih _ x hx with h | h
    · rcases (insert_ranked_mem acc a x).mp h with h' | hxe
      · exact Or.inl h'
      · rw [hxe]
        exact Or.inr (List.mem_cons_self a t)
    · exact Or.inr (List.mem_cons_of_mem a h)

lemma sort_ranked_mem (l : List AgentAgg) (x : AgentAgg)
    (hx : x ∈ _sort_ranked l) : x ∈ l := by
  unfold _sort_ranked at hx
  rcases sort_ranked_mem_aux l [] x hx with h | h
  · simp at h
  · exact h

/-- The ranked list of get_leaderboard, written explicitly. -/
lemma get_leaderboard_spec (file : StoredFile) (limit : Nat) :
    (get_leaderboard file limit).leaderboard =
      (_sort_ranked (_group_agents (_load_claims file).claims)).take
        limit := rfl

/-- C9: the leaderboard groups claims by exact agent name, sums
sats_claimed over all of an agent's claims regardless of status
(rejected amounts included), sorts weakly descending by total with
ties strictly in first-appearance order of the claim list, lists each
agent at most once (all entries actually appearing in the claim list),
and truncates to the given limit. -/
theorem c9_leaderboard_characterization (file : StoredFile)
    (limit : Nat) :
    (get_leaderboard file limit).leaderboard.length ≤ limit ∧
    (∀ e ∈ (get_leaderboard file limit).leaderboard,
      e.total_sats = agent_total (_load_claims file).claims
        e.agent_name ∧
      e.claims = agent_count (_load_claims file).claims e.agent_name ∧
      name_occurs (_load_claims file).claims e.agent_name = true) ∧
    (get_leaderboard file limit).leaderboard.Pairwise
      (ranked_rel (_load_claims file).claims) := by
  obtain ⟨g1, g2, g3⟩ := group_agents_inv (_load_claims file).claims
  have hS : (_group_agents (_load_claims file).claims).Pairwise
      (fun a b =>
        (a.total_sats = b.total_sats →
          first_occurrence (_load_claims file).claims a.agent_name <
            first_occurrence (_load_claims file).claims b.agent_name) ∧
        a.agent_name ≠ b.agent_name) := by
    refine g3.imp ?_
    intro a b hab
    refine ⟨fun _ => hab, fun hn => ?_⟩
    rw [hn] at hab
    exact lt_irrefl _ hab
  have hsorted : (_sort_ranked
      (_group_agents (_load_claims file).claims)).Pairwise
      (ranked_rel (_load_claims file).claims) := by
    unfold _sort_ranked
    refine sort_ranked_pairwise_aux _ _ [] (by simp) ?_ hS
    intro b hb
    simp at hb
  refine ⟨?_, ?_, ?_⟩
  · rw [get_leaderboard_spec, List.length_take]
    exact Nat.min_le_left _ _
  · intro e he
    rw [get_leaderboard_spec] at he
    have he1 := (List.take_sublist _ _).subset he
    exact g1 e (sort_ranked_mem _ e he1)
  · rw [get_leaderboard_spec]
    exact hsorted.sublist (List.take_sublist _ _)
